import Mathlib

/-!
# Verification of the Products REST service (service/routes.py)

Shallow embedding of the Products service routes and (where the model layer
is absent from the sources) the model operations as the spec describes them.

Conventions of the embedding:
* The persistent store is a `List Products` (the rows of the products table,
  keyed by the primary key `id`).
* Python `Decimal` values are embedded as `ℚ`: `Decimal` arithmetic on
  finite decimals is exact rational arithmetic, and `quantize(Decimal("0.01"))`
  in the default context rounds to an integer number of cents with
  round-half-to-even (`ROUND_HALF_EVEN`).
* The `discount_percentage` member of a payload is classified by what
  `float(...)` does with it: a finite float (embedded as its exact rational
  value), `nan`, `inf` or `-inf`, a `ValueError` (unparsable string — caught
  by the route's `except ValueError`), or a `TypeError` (null, array,
  object — not caught, surfacing as an HTTP 500). `DiscountField` covers
  this whole space; `DiscountPayload` is its finite fragment.
* `abort(status, msg)` is an `Except`-style error carrying the HTTP class;
  an exception the route does not catch is the `internal` (500) outcome.
-/

set_option autoImplicit false

namespace ProductsService

/-- A row of the products table: `id` (primary key), `name`, `description`,
`price` (a `Numeric` column, held as an exact rational). -/
structure Products where
  id : Nat
  name : String
  description : String
  price : ℚ
  deriving DecidableEq, Repr

/-- Errors surfaced by the routes: `abort(404, ...)`, `abort(400, ...)`, and
`internal` for an exception the handler does not catch, which the framework
answers with HTTP 500. -/
inductive ApiError where
  | notFound (msg : String) : ApiError
  | badRequest (msg : String) : ApiError
  | internal (msg : String) : ApiError
  deriving DecidableEq, Repr

/-- Modelled from the spec: `Products.find(product_id)` of the model layer
(absent from the sources) "returns the matching record or a not-found
signal; never raises for absence" — lookup by primary key. -/
def find (store : List Products) (pid : Nat) : Option Products :=
  store.find? (fun p => p.id == pid)

/-- Modelled from the spec: `product.update()` persists the mutated record —
the row with the record's primary key is replaced. -/
def updateStore (store : List Products) (pid : Nat) (p' : Products) : List Products :=
  store.map (fun p => if p.id == pid then p' else p)

/-- Round a rational to the nearest integer, ties to the even neighbour:
the `ROUND_HALF_EVEN` rounding of Python's default `Decimal` context. -/
def roundHalfEven (x : ℚ) : ℤ :=
  if x - x.floor < 1/2 then x.floor
  else if 1/2 < x - x.floor then x.floor + 1
  else if x.floor % 2 = 0 then x.floor else x.floor + 1

/-- `new_price.quantize(Decimal("0.01"))`: round to 2 decimal places in the
default `Decimal` context (round half to even). -/
def quantize2 (x : ℚ) : ℚ :=
  (roundHalfEven (x * 100) : ℚ) / 100

deriving instance DecidableEq for Except

/-- The finite fragment of the `discount_percentage` field of the request
body: absent (no body, or key missing), a value on which `float(...)` raises
`ValueError`, or a finite numeric value `q` (the exact rational value of the
parsed float). `DiscountField` below covers the remaining reachable
outcomes of `float(...)` — NaN, the infinities and `TypeError` payloads —
and `applyDiscountFull_agrees` relates the two embeddings. -/
inductive DiscountPayload where
  | missing : DiscountPayload
  | nonNumeric : DiscountPayload
  | num (q : ℚ) : DiscountPayload
  deriving DecidableEq, Repr

/-- The finite-number fragment of `DiscountResource.post`
(POST /products/{id}/discount): find the product (404 if absent); require
`discount_percentage` (400 if missing, if `float(...)` raises `ValueError`,
or if the value lies outside [0, 100]); set
`price := quantize2 (price - price * d / 100)` and persist.
Returns the resulting store together with the route's outcome.
`applyDiscountFull` below embeds the route on the whole input space of
`float(...)` and agrees with this fragment (`applyDiscountFull_agrees`). -/
def applyDiscount (store : List Products) (pid : Nat) (payload : DiscountPayload) :
    List Products × Except ApiError Products :=
  match find store pid with
  | none =>
      (store, .error (.notFound ("Product with id " ++ toString pid ++ " not found.")))
  | some product =>
      match payload with
      | .missing =>
          (store, .error (.badRequest "Discount percentage must be provided."))
      | .nonNumeric =>
          (store, .error (.badRequest "could not convert to float"))
      | .num d =>
          if d < 0 ∨ 100 < d then
            (store, .error (.badRequest "Discount percentage must be between 0 and 100."))
          else
            let newPrice := quantize2 (product.price - product.price * d / 100)
            let p' := { product with price := newPrice }
            (updateStore store pid p', .ok p')

/-- Modelled from the spec: "rounds to 2 decimal places using
round-half-away-from-zero ... semantics" — the rounding the spec prescribes,
for comparison with the code's `roundHalfEven`. -/
def roundHalfAwayFromZero (x : ℚ) : ℤ :=
  if 0 ≤ x then (x + 1/2).floor else -((-x + 1/2).floor)

/-- Modelled from the spec: rounding to 2 decimal places with
round-half-away-from-zero semantics. -/
def quantize2Away (x : ℚ) : ℚ :=
  (roundHalfAwayFromZero (x * 100) : ℚ) / 100

/-! ### Evaluation lemmas for the rounding functions

`Rat` arithmetic is irreducible, so concrete values are computed through the
floor API rather than by kernel reduction. -/

theorem ratFloor_eq (x : ℚ) : x.floor = ⌊x⌋ := by
  rw [Rat.floor_def', ← Rat.floor_def]

theorem roundHalfEven_of_lt_half (n : ℤ) (x : ℚ) (h1 : (n : ℚ) ≤ x)
    (h2 : x < n + 1/2) : roundHalfEven x = n := by
  have hf : ⌊x⌋ = n := Int.floor_eq_iff.mpr ⟨h1, by linarith⟩
  unfold roundHalfEven
  rw [ratFloor_eq, hf, if_pos (by linarith)]

theorem roundHalfEven_of_gt_half (n : ℤ) (x : ℚ) (h1 : (n : ℚ) + 1/2 < x)
    (h2 : x < n + 1) : roundHalfEven x = n + 1 := by
  have hf : ⌊x⌋ = n := Int.floor_eq_iff.mpr ⟨by linarith, by linarith⟩
  unfold roundHalfEven
  rw [ratFloor_eq, hf, if_neg (by linarith), if_pos (by linarith)]

theorem roundHalfEven_tie (n : ℤ) :
    roundHalfEven ((n : ℚ) + 1/2) = if n % 2 = 0 then n else n + 1 := by
  have hf : ⌊(n : ℚ) + 1/2⌋ = n := by
    rw [Int.floor_eq_iff]
    constructor
    · linarith
    · linarith
  unfold roundHalfEven
  rw [ratFloor_eq, hf]
  have hx : (n : ℚ) + 1/2 - n = 1/2 := by ring
  rw [hx, if_neg (lt_irrefl _), if_neg (lt_irrefl _)]

theorem roundHalfEven_intCast (n : ℤ) : roundHalfEven (n : ℚ) = n :=
  roundHalfEven_of_lt_half n n (le_refl _) (by norm_num)

theorem roundHalfEven_nonneg (x : ℚ) (h : 0 ≤ x) : 0 ≤ roundHalfEven x := by
  have hf : 0 ≤ ⌊x⌋ := Int.floor_nonneg.mpr h
  unfold roundHalfEven
  rw [ratFloor_eq]
  split_ifs <;> omega

theorem quantize2_nonneg (x : ℚ) (h : 0 ≤ x) : 0 ≤ quantize2 x := by
  unfold quantize2
  have := roundHalfEven_nonneg (x * 100) (by positivity)
  positivity

/-! ### Behaviour of `find` and `updateStore` -/

theorem find_updateStore (store : List Products) (pid : Nat) (p' : Products)
    (hid : p'.id = pid) (h : (find store pid).isSome) :
    find (updateStore store pid p') pid = some p' := by
  induction store with
  | nil => simp [find] at h
  | cons q t ih =>
      unfold find updateStore at *
      simp only [List.map_cons]
      by_cases hq : (q.id == pid) = true
      · rw [if_pos hq, List.find?_cons_of_pos (p := fun r : Products => r.id == pid) _ (by simpa using hid)]
      · rw [if_neg hq, List.find?_cons_of_neg (p := fun r : Products => r.id == pid) _ hq]
        rw [List.find?_cons_of_neg (p := fun r : Products => r.id == pid) _ hq] at h
        exact ih h

/-- The behaviour of the discount route when the product exists and the
percentage passes validation: the single equation the source computes. -/
theorem applyDiscount_found (store : List Products) (pid : Nat) (prod : Products)
    (d : ℚ) (hfind : find store pid = some prod) (hd : ¬(d < 0 ∨ 100 < d)) :
    applyDiscount store pid (.num d) =
      (updateStore store pid { prod with price := quantize2 (prod.price - prod.price * d / 100) },
        .ok { prod with price := quantize2 (prod.price - prod.price * d / 100) }) := by
  simp only [applyDiscount, hfind, if_neg hd]

theorem find_id (store : List Products) (pid : Nat) (prod : Products)
    (hfind : find store pid = some prod) : prod.id = pid := by
  have := List.find?_some hfind
  simpa using this

theorem accepted_of_bounds {d : ℚ} (h0 : 0 ≤ d) (h1 : d ≤ 100) : ¬(d < 0 ∨ 100 < d) := by
  simp only [not_or, not_lt]
  exact ⟨h0, h1⟩

theorem quantize2_intCast (k : ℤ) : quantize2 (k : ℚ) = k := by
  unfold quantize2
  have e : ((k : ℚ)) * 100 = ((k * 100 : ℤ) : ℚ) := by push_cast; ring
  rw [e, roundHalfEven_intCast]
  push_cast
  ring

/-- `0.50 - 0.50 * 75 / 100 = 0.125` lands on a half cent; the default
`Decimal` context rounds it to the even cent `0.12`. -/
theorem quantize2_eighth : quantize2 ((1 : ℚ)/2 - (1/2) * 75 / 100) = 3/25 := by
  have e : ((1 : ℚ)/2 - (1/2) * 75 / 100) * 100 = ((12 : ℤ) : ℚ) + 1/2 := by norm_num
  unfold quantize2
  rw [e, roundHalfEven_tie]
  norm_num

/-! ### C1 — the discount formula -/

/-- C1: for every existing product with id `pid` and price `p`, and every
`discount_percentage` `d` accepted by validation, `apply_discount` sets and
returns the product's price as `p - p * d / 100` rounded to 2 decimal
places (in particular 20% off a price of 100.00 gives exactly 80.00 — see
the witness). -/
theorem apply_discount_computes_discounted_price
    (store : List Products) (pid : Nat) (prod : Products) (d : ℚ)
    (hfind : find store pid = some prod) (h0 : 0 ≤ d) (h1 : d ≤ 100) :
    (applyDiscount store pid (.num d)).2 =
        .ok { prod with price := quantize2 (prod.price - prod.price * d / 100) } ∧
      find (applyDiscount store pid (.num d)).1 pid =
        some { prod with price := quantize2 (prod.price - prod.price * d / 100) } := by
  rw [applyDiscount_found store pid prod d hfind (accepted_of_bounds h0 h1)]
  refine ⟨rfl, ?_⟩
  exact find_updateStore store pid _ (find_id store pid prod hfind) (by rw [hfind]; rfl)

/-- C1 witness: a 20% discount on a product priced 100.00 yields exactly 80.00. -/
theorem apply_discount_computes_discounted_price_witness :
    find [⟨1, "Test Product", "Test Description", 100⟩] 1 =
        some ⟨1, "Test Product", "Test Description", 100⟩ ∧
      (0 : ℚ) ≤ 20 ∧ (20 : ℚ) ≤ 100 ∧
      (applyDiscount [⟨1, "Test Product", "Test Description", 100⟩] 1 (.num 20)).2 =
        .ok ⟨1, "Test Product", "Test Description", 80⟩ := by
  have h := (apply_discount_computes_discounted_price
    [⟨1, "Test Product", "Test Description", 100⟩] 1
    ⟨1, "Test Product", "Test Description", 100⟩ 20 rfl (by norm_num) (by norm_num)).1
  refine ⟨rfl, by norm_num, by norm_num, ?_⟩
  rw [h]
  show Except.ok (⟨1, "Test Product", "Test Description",
    quantize2 ((100 : ℚ) - 100 * 20 / 100)⟩ : Products) = _
  have keyval : quantize2 ((100 : ℚ) - 100 * 20 / 100) = 80 := by
    have e : (100 : ℚ) - 100 * 20 / 100 = ((80 : ℤ) : ℚ) := by norm_num
    rw [e, quantize2_intCast]
    norm_num
  rw [keyval]

/-! ### C2 — rounding semantics -/

/-- C2 is false as stated: the code rounds with the default `Decimal`
context (`ROUND_HALF_EVEN`), not round-half-away-from-zero. On a product
priced 0.50 a 75% discount computes exactly 0.125, which the code stores
as 0.12, while round-half-away-from-zero (the spec's rounding) gives 0.13. -/
theorem apply_discount_not_half_away_cx :
    (applyDiscount [⟨1, "Test", "", 1/2⟩] 1 (.num 75)).2 =
        .ok ⟨1, "Test", "", 3/25⟩ ∧
      quantize2Away ((1 : ℚ)/2 - (1/2) * 75 / 100) = 13/100 ∧
      (3 : ℚ)/25 ≠ 13/100 := by
  have h := applyDiscount_found [⟨1, "Test", "", 1/2⟩] 1 ⟨1, "Test", "", 1/2⟩ 75 rfl
    (accepted_of_bounds (by norm_num) (by norm_num))
  refine ⟨?_, ?_, by norm_num⟩
  · rw [h]
    show Except.ok (⟨1, "Test", "", quantize2 ((1 : ℚ)/2 - (1/2) * 75 / 100)⟩ : Products) = _
    rw [quantize2_eighth]
  · have e : ((1 : ℚ)/2 - (1/2) * 75 / 100) * 100 = 25/2 := by norm_num
    unfold quantize2Away roundHalfAwayFromZero
    rw [e, if_pos (by norm_num : (0 : ℚ) ≤ 25/2)]
    have e3 : (25/2 + 1/2 : ℚ) = ((13 : ℤ) : ℚ) := by norm_num
    rw [e3, ratFloor_eq, Int.floor_intCast]
    norm_num

/-- C2 (amended): the discount is computed in exact `Decimal` arithmetic on
the float-converted percentage, and the result is rounded to 2 decimal
places with round-half-to-even (banker's rounding) — an exact half cent
rounds to the even neighbour, so 0.125 becomes 0.12, not 0.13. -/
theorem apply_discount_half_even_rounding
    (store : List Products) (pid : Nat) (prod : Products) (d : ℚ)
    (hfind : find store pid = some prod) (h0 : 0 ≤ d) (h1 : d ≤ 100) :
    (applyDiscount store pid (.num d)).2 =
        .ok { prod with price := quantize2 (prod.price - prod.price * d / 100) } ∧
      ∀ k : ℤ, roundHalfEven ((k : ℚ) + 1/2) = if k % 2 = 0 then k else k + 1 := by
  refine ⟨?_, roundHalfEven_tie⟩
  rw [applyDiscount_found store pid prod d hfind (accepted_of_bounds h0 h1)]

/-- C2 amended witness: 75% off 0.50 runs through the exact computation and
stores the half-even-rounded 0.12. -/
theorem apply_discount_half_even_rounding_witness :
    find [⟨1, "Test", "", 1/2⟩] 1 = some ⟨1, "Test", "", 1/2⟩ ∧
      (0 : ℚ) ≤ 75 ∧ (75 : ℚ) ≤ 100 ∧
      (applyDiscount [⟨1, "Test", "", 1/2⟩] 1 (.num 75)).2 = .ok ⟨1, "Test", "", 3/25⟩ := by
  have h := (apply_discount_half_even_rounding [⟨1, "Test", "", 1/2⟩] 1
    ⟨1, "Test", "", 1/2⟩ 75 rfl (by norm_num) (by norm_num)).1
  refine ⟨rfl, by norm_num, by norm_num, ?_⟩
  rw [h]
  show Except.ok (⟨1, "Test", "", quantize2 ((1 : ℚ)/2 - (1/2) * 75 / 100)⟩ : Products) = _
  rw [quantize2_eighth]

/-! ### C3 — validation of the discount percentage

The full input space of `float(data["discount_percentage"])`: besides the
finite values and the `ValueError` strings, `float(...)` can return `nan`
(from `"nan"` or bare JSON `NaN`), `inf` or `-inf`, or raise a `TypeError`
(null, array, object) that the route's `except ValueError` does not catch.
`nan < 0 or nan > 100` is False in Python, so a NaN is accepted; the
`Decimal` computation then propagates quietly (`quantize` of a quiet NaN is
NaN) and the row's price column is persisted as `Decimal('NaN')` (the
`Numeric` column admits NaN). -/

/-- What `float(...)` does with the JSON value of `discount_percentage`. -/
inductive FloatOutcome where
  | valueError : FloatOutcome
  | typeError : FloatOutcome
  | nan : FloatOutcome
  | posInf : FloatOutcome
  | negInf : FloatOutcome
  | finite (q : ℚ) : FloatOutcome
  deriving DecidableEq, Repr

/-- The `discount_percentage` member of the request body: absent, or a JSON
value classified by its `float(...)` outcome. -/
inductive DiscountField where
  | missing : DiscountField
  | val (v : FloatOutcome) : DiscountField
  deriving DecidableEq, Repr

/-- A row whose price column holds `Decimal('NaN')`: its id, name and
description (the price is not a rational number). -/
structure RowNaN where
  id : Nat
  name : String
  description : String
  deriving DecidableEq, Repr

/-- The 200 body of the discount route: the updated row, whose price is
either finite or NaN. -/
inductive DiscountBody where
  | fin (p : Products) : DiscountBody
  | nanPrice (r : RowNaN) : DiscountBody
  deriving DecidableEq, Repr

/-- `DiscountResource.post` on the whole input space of `float(...)`: find
the product (404 if absent); 400 if the field is missing, is a `ValueError`
string, or parses to ±infinity or a finite value outside [0, 100]; a
`TypeError` value escapes the `except ValueError` handler (500); a NaN
passes `d < 0 or d > 100` and is accepted — the price column becomes
`Decimal('NaN')` and is persisted. The state is the finite-priced rows
together with the rows whose price column holds NaN. -/
def applyDiscountFull (store : List Products) (pid : Nat) (payload : DiscountField) :
    (List Products × List RowNaN) × Except ApiError DiscountBody :=
  match find store pid with
  | none =>
      ((store, []), .error (.notFound ("Product with id " ++ toString pid ++ " not found.")))
  | some product =>
      match payload with
      | .missing =>
          ((store, []), .error (.badRequest "Discount percentage must be provided."))
      | .val .valueError =>
          ((store, []), .error (.badRequest "could not convert to float"))
      | .val .typeError =>
          ((store, []), .error (.internal
            "TypeError: float() argument must be a string or a real number"))
      | .val .posInf =>
          ((store, []), .error (.badRequest "Discount percentage must be between 0 and 100."))
      | .val .negInf =>
          ((store, []), .error (.badRequest "Discount percentage must be between 0 and 100."))
      | .val .nan =>
          ((store.eraseP (fun p => p.id == pid),
              [⟨product.id, product.name, product.description⟩]),
            .ok (.nanPrice ⟨product.id, product.name, product.description⟩))
      | .val (.finite d) =>
          if d < 0 ∨ 100 < d then
            ((store, []), .error (.badRequest "Discount percentage must be between 0 and 100."))
          else
            let p' := { product with price := quantize2 (product.price - product.price * d / 100) }
            ((updateStore store pid p', []), .ok (.fin p'))

/-- On missing, `ValueError` and finite payloads — the inputs `DiscountPayload`
represents — the full route agrees with its finite fragment `applyDiscount`. -/
theorem applyDiscountFull_agrees (store : List Products) (pid : Nat) :
    (∀ d : ℚ, applyDiscountFull store pid (.val (.finite d)) =
        (((applyDiscount store pid (.num d)).1, []),
          Except.map DiscountBody.fin (applyDiscount store pid (.num d)).2)) ∧
      (applyDiscountFull store pid .missing =
        (((applyDiscount store pid .missing).1, []),
          Except.map DiscountBody.fin (applyDiscount store pid .missing).2)) ∧
      (applyDiscountFull store pid (.val .valueError) =
        (((applyDiscount store pid .nonNumeric).1, []),
          Except.map DiscountBody.fin (applyDiscount store pid .nonNumeric).2)) := by
  refine ⟨?_, ?_, ?_⟩
  · intro d
    cases hfind : find store pid with
    | none => simp [applyDiscountFull, applyDiscount, hfind, Except.map]
    | some prod =>
        by_cases hd : d < 0 ∨ 100 < d
        · simp [applyDiscountFull, applyDiscount, hfind, if_pos hd, Except.map]
        · simp [applyDiscountFull, applyDiscount, hfind, if_neg hd, Except.map]
  · cases hfind : find store pid <;>
      simp [applyDiscountFull, applyDiscount, hfind, Except.map]
  · cases hfind : find store pid <;>
      simp [applyDiscountFull, applyDiscount, hfind, Except.map]

/-- C3 is false as stated, on an existing product priced 100.00:
a `{"discount_percentage": null}` payload (`float(None)` raises `TypeError`)
fails with an uncaught exception — a 500, not the claimed validation
error — and a `"nan"` payload, although not a number in [0, 100], passes
`d < 0 or d > 100` and is accepted, persisting NaN as the price. -/
theorem apply_discount_validation_cx :
    (applyDiscountFull [⟨1, "Test", "", 100⟩] 1 (.val .typeError)).2 =
        .error (.internal "TypeError: float() argument must be a string or a real number") ∧
      (∀ msg, (applyDiscountFull [⟨1, "Test", "", 100⟩] 1 (.val .typeError)).2 ≠
        .error (.badRequest msg)) ∧
      (applyDiscountFull [⟨1, "Test", "", 100⟩] 1 (.val .nan)).2 =
        .ok (.nanPrice ⟨1, "Test", ""⟩) ∧
      (applyDiscountFull [⟨1, "Test", "", 100⟩] 1 (.val .nan)).1.2 = [⟨1, "Test", ""⟩] := by
  refine ⟨rfl, ?_, rfl, rfl⟩
  intro msg h
  exact ApiError.noConfusion (Except.error.inj h)

/-- The payloads the route answers with a 400: the field is absent,
`float(...)` raises `ValueError`, or the parsed value is ±infinity or a
finite number outside the closed interval `[0, 100]`. -/
def discountRejectedFull (payload : DiscountField) : Prop :=
  payload = .missing ∨ payload = .val .valueError ∨
    payload = .val .posInf ∨ payload = .val .negInf ∨
    ∃ d, payload = .val (.finite d) ∧ (d < 0 ∨ 100 < d)

/-- C3 (amended): for every existing product id, `apply_discount` fails with
a validation error (400) exactly when `discount_percentage` is missing, is
a string `float(...)` cannot parse, or parses to ±infinity or a finite
value outside [0, 100]; every finite value inside [0, 100] (endpoints
included) is accepted. The original claim fails on two reachable inputs:
a value on which `float(...)` raises `TypeError` (null, array, object)
escapes the `except ValueError` handler and surfaces as a 500, and a NaN
passes the range check and is accepted, persisting NaN as the price. -/
theorem apply_discount_validation_full
    (store : List Products) (pid : Nat) (prod : Products) (payload : DiscountField)
    (hfind : find store pid = some prod) :
    ((∃ msg, (applyDiscountFull store pid payload).2 = .error (.badRequest msg)) ↔
        discountRejectedFull payload) ∧
      (payload = .val .typeError →
        ∃ msg, (applyDiscountFull store pid payload).2 = .error (.internal msg)) ∧
      (payload = .val .nan →
        (applyDiscountFull store pid payload).2 =
            .ok (.nanPrice ⟨prod.id, prod.name, prod.description⟩) ∧
          (applyDiscountFull store pid payload).1.2 =
            [⟨prod.id, prod.name, prod.description⟩]) ∧
      (∀ d : ℚ, payload = .val (.finite d) → 0 ≤ d → d ≤ 100 →
        ∃ p', (applyDiscountFull store pid payload).2 = .ok (.fin p')) := by
  cases payload with
  | missing =>
      refine ⟨⟨fun _ => Or.inl rfl,
        fun _ => ⟨"Discount percentage must be provided.", ?_⟩⟩,
        by intro h; simp at h, by intro h; simp at h, by intro d h; simp at h⟩
      simp [applyDiscountFull, hfind]
  | val v =>
      cases v with
      | valueError =>
          refine ⟨⟨fun _ => Or.inr (Or.inl rfl),
            fun _ => ⟨"could not convert to float", ?_⟩⟩,
            by intro h; simp at h, by intro h; simp at h, by intro d h; simp at h⟩
          simp [applyDiscountFull, hfind]
      | typeError =>
          refine ⟨⟨?_, ?_⟩, fun _ =>
            ⟨"TypeError: float() argument must be a string or a real number", ?_⟩,
            by intro h; simp at h, by intro d h; simp at h⟩
          · rintro ⟨msg, hmsg⟩
            simp [applyDiscountFull, hfind] at hmsg
          · rintro (h | h | h | h | ⟨d, h, _⟩) <;> simp at h
          · simp [applyDiscountFull, hfind]
      | nan =>
          refine ⟨⟨?_, ?_⟩, by intro h; simp at h, fun _ => ⟨?_, ?_⟩, by intro d h; simp at h⟩
          · rintro ⟨msg, hmsg⟩
            simp [applyDiscountFull, hfind] at hmsg
          · rintro (h | h | h | h | ⟨d, h, _⟩) <;> simp at h
          · simp [applyDiscountFull, hfind]
          · simp [applyDiscountFull, hfind]
      | posInf =>
          refine ⟨⟨fun _ => Or.inr (Or.inr (Or.inl rfl)),
            fun _ => ⟨"Discount percentage must be between 0 and 100.", ?_⟩⟩,
            by intro h; simp at h, by intro h; simp at h, by intro d h; simp at h⟩
          simp [applyDiscountFull, hfind]
      | negInf =>
          refine ⟨⟨fun _ => Or.inr (Or.inr (Or.inr (Or.inl rfl))),
            fun _ => ⟨"Discount percentage must be between 0 and 100.", ?_⟩⟩,
            by intro h; simp at h, by intro h; simp at h, by intro d h; simp at h⟩
          simp [applyDiscountFull, hfind]
      | finite d =>
          by_cases hd : d < 0 ∨ 100 < d
          · refine ⟨⟨fun _ => Or.inr (Or.inr (Or.inr (Or.inr ⟨d, rfl, hd⟩))),
              fun _ => ⟨"Discount percentage must be between 0 and 100.", ?_⟩⟩,
              by intro h; simp at h, by intro h; simp at h, ?_⟩
            · simp [applyDiscountFull, hfind, if_pos hd]
            · intro e he h0 h100
              simp only [DiscountField.val.injEq, FloatOutcome.finite.injEq] at he
              subst he
              rcases hd with hc | hc
              · exact absurd h0 (not_le.mpr hc)
              · exact absurd h100 (not_le.mpr hc)
          · refine ⟨⟨?_, ?_⟩, by intro h; simp at h, by intro h; simp at h, ?_⟩
            · rintro ⟨msg, hmsg⟩
              simp [applyDiscountFull, hfind, if_neg hd] at hmsg
            · rintro (h | h | h | h | ⟨e, he, hcond⟩)
              · simp at h
              · simp at h
              · simp at h
              · simp at h
              · simp only [DiscountField.val.injEq, FloatOutcome.finite.injEq] at he
                subst he
                exact absurd hcond hd
            · intro e he h0 h100
              exact ⟨{ prod with price := quantize2 (prod.price - prod.price * d / 100) },
                by simp [applyDiscountFull, hfind, if_neg hd]⟩

/-- C3 amended witness: on an existing product, 150 is rejected with a
validation error, and 100 (an endpoint of the interval) is accepted. -/
theorem apply_discount_validation_full_witness :
    find [⟨1, "Widget", "", 100⟩] 1 = some ⟨1, "Widget", "", 100⟩ ∧
      (∃ msg, (applyDiscountFull [⟨1, "Widget", "", 100⟩] 1 (.val (.finite 150))).2 =
        .error (.badRequest msg)) ∧
      (∃ p', (applyDiscountFull [⟨1, "Widget", "", 100⟩] 1 (.val (.finite 100))).2 =
        .ok (.fin p')) := by
  have h150 := apply_discount_validation_full [⟨1, "Widget", "", 100⟩] 1
    ⟨1, "Widget", "", 100⟩ (.val (.finite 150)) rfl
  have h100 := apply_discount_validation_full [⟨1, "Widget", "", 100⟩] 1
    ⟨1, "Widget", "", 100⟩ (.val (.finite 100)) rfl
  exact ⟨rfl,
    h150.1.mpr (Or.inr (Or.inr (Or.inr (Or.inr ⟨150, rfl, Or.inr (by norm_num)⟩)))),
    h100.2.2.2 100 rfl (by norm_num) (by norm_num)⟩

/-! ### C4 — the `price > 0` invariant under discounts -/

/-- C4 is false as stated: `apply_discount` performs no check on the
resulting price. A 100% discount on a product priced 100.00 is accepted,
and the stored price becomes exactly 0, which does not satisfy `0 < price`. -/
theorem apply_discount_persists_zero_price_cx :
    (applyDiscount [⟨1, "Test", "", 100⟩] 1 (.num 100)).1 = [⟨1, "Test", "", 0⟩] ∧
      (applyDiscount [⟨1, "Test", "", 100⟩] 1 (.num 100)).2 = .ok ⟨1, "Test", "", 0⟩ ∧
      ¬ (0 : ℚ) < 0 := by
  have h := applyDiscount_found [⟨1, "Test", "", 100⟩] 1 ⟨1, "Test", "", 100⟩ 100 rfl
    (accepted_of_bounds (by norm_num) (by norm_num))
  have keyval : quantize2 ((100 : ℚ) - 100 * 100 / 100) = 0 := by
    have e : (100 : ℚ) - 100 * 100 / 100 = ((0 : ℤ) : ℚ) := by norm_num
    rw [e, quantize2_intCast]
    norm_num
  refine ⟨?_, ?_, by norm_num⟩
  · rw [h]
    show [(⟨1, "Test", "", quantize2 ((100 : ℚ) - 100 * 100 / 100)⟩ : Products)] = _
    rw [keyval]
  · rw [h]
    show Except.ok (⟨1, "Test", "", quantize2 ((100 : ℚ) - 100 * 100 / 100)⟩ : Products) = _
    rw [keyval]

/-- C4 (amended): `apply_discount` applies no floor check on the result — on
an existing product with positive price, every accepted discount succeeds
and unconditionally persists the rounded price, which is nonnegative but
not necessarily positive (a 100% discount stores exactly 0, violating the
`price > 0` invariant; see the counterexample). -/
theorem apply_discount_no_floor_check
    (store : List Products) (pid : Nat) (prod : Products) (d : ℚ)
    (hfind : find store pid = some prod) (h0 : 0 ≤ d) (h1 : d ≤ 100)
    (hp : 0 < prod.price) :
    (applyDiscount store pid (.num d)).2 =
        .ok { prod with price := quantize2 (prod.price - prod.price * d / 100) } ∧
      0 ≤ quantize2 (prod.price - prod.price * d / 100) := by
  refine ⟨?_, ?_⟩
  · rw [applyDiscount_found store pid prod d hfind (accepted_of_bounds h0 h1)]
  · apply quantize2_nonneg
    have hmul : prod.price * d ≤ prod.price * 100 :=
      mul_le_mul_of_nonneg_left h1 (le_of_lt hp)
    have hdiv : prod.price * d / 100 ≤ prod.price := by
      rw [div_le_iff₀ (by norm_num : (0 : ℚ) < 100)]
      linarith
    linarith

/-- C4 amended witness: the 100% discount on price 100.00 succeeds with a
nonnegative (indeed zero) stored price. -/
theorem apply_discount_no_floor_check_witness :
    find [⟨1, "Test", "", 100⟩] 1 = some ⟨1, "Test", "", 100⟩ ∧
      (0 : ℚ) ≤ 100 ∧ (100 : ℚ) ≤ 100 ∧ (0 : ℚ) < 100 ∧
      ((applyDiscount [⟨1, "Test", "", 100⟩] 1 (.num 100)).2 =
          .ok ⟨1, "Test", "", quantize2 ((100 : ℚ) - 100 * 100 / 100)⟩ ∧
        0 ≤ quantize2 ((100 : ℚ) - 100 * 100 / 100)) := by
  have h := apply_discount_no_floor_check [⟨1, "Test", "", 100⟩] 1
    ⟨1, "Test", "", 100⟩ 100 rfl (by norm_num) (by norm_num) (by norm_num)
  exact ⟨rfl, by norm_num, by norm_num, by norm_num, h⟩

/-! ### The remaining routes: delete by id, update, create, delete by name, list -/

/-- `ProductResource.delete` (DELETE /products/{id}): find the product; when
absent, log and return 204 anyway; when present, delete that row and
return 204. -/
def deleteById (store : List Products) (pid : Nat) : List Products × Nat :=
  match find store pid with
  | none => (store, 204)
  | some _ => (store.eraseP (fun p => p.id == pid), 204)

/-- The body of a create or update request: `name`, `description`, `price`. -/
structure ProductInput where
  name : String
  description : String
  price : ℚ
  deriving DecidableEq, Repr

/-- Modelled from the spec: `Products.deserialize` validation (model layer
absent from the sources) — name required non-empty of at most 63
characters, description at most 256 characters, price strictly positive. -/
def validInput (inp : ProductInput) : Prop :=
  inp.name ≠ "" ∧ inp.name.length ≤ 63 ∧ inp.description.length ≤ 256 ∧ 0 < inp.price

instance (inp : ProductInput) : Decidable (validInput inp) := by
  unfold validInput
  infer_instance

/-- `ProductResource.put` (PUT /products/{id}): find the product (404 when
absent); deserialize the payload into it (full replacement, 400 when
invalid); force `id := product_id`; persist. -/
def updateProduct (store : List Products) (pid : Nat) (inp : ProductInput) :
    List Products × Except ApiError Products :=
  match find store pid with
  | none =>
      (store, .error (.notFound
        ("Product with id '" ++ toString pid ++ "' was not found.")))
  | some _ =>
      if validInput inp then
        (updateStore store pid ⟨pid, inp.name, inp.description, inp.price⟩,
          .ok ⟨pid, inp.name, inp.description, inp.price⟩)
      else
        (store, .error (.badRequest "The posted Product data was not valid"))

/-- Modelled from the spec: on create the store "assigns a new unique id" —
an id strictly larger than every existing id. -/
def nextId (store : List Products) : Nat :=
  (store.map Products.id).foldr max 0 + 1

/-- `ProductCollection.post` (POST /products): deserialize the payload (400
when invalid), create the row with a fresh id, return it with 201. -/
def createProduct (store : List Products) (inp : ProductInput) :
    List Products × Except ApiError Products :=
  if validInput inp then
    (store ++ [⟨nextId store, inp.name, inp.description, inp.price⟩],
      .ok ⟨nextId store, inp.name, inp.description, inp.price⟩)
  else
    (store, .error (.badRequest "The posted data was not valid"))

/-- SQL LIKE pattern matching over characters: `%` matches any sequence
(the rest of the pattern must match some suffix of the string), `_` matches
exactly one character, every other character matches itself, and the whole
string must be consumed. -/
def likeMatch : List Char → List Char → Bool
  | [], s => s.isEmpty
  | q :: ps, s =>
      if q = '%' then s.tails.any (fun t => likeMatch ps t)
      else
        match s with
        | [] => false
        | c :: cs => (if q = '_' then true else q == c) && likeMatch ps cs

/-- The characters of a string, lower-cased — ILIKE compares lower-cased
text (basic-latin model). -/
def lowerChars (s : String) : List Char :=
  s.data.map Char.toLower

/-- `Products.name.ilike(pattern)`: case-insensitive SQL LIKE. -/
def ilike (hay : String) (pat : String) : Bool :=
  likeMatch (lowerChars pat) (lowerChars hay)

def startsWithChars : List Char → List Char → Bool
  | [], _ => true
  | _ :: _, [] => false
  | a :: as, b :: bs => (a == b) && startsWithChars as bs

def containsChars (needle hay : List Char) : Bool :=
  hay.tails.any (fun t => startsWithChars needle t)

/-- Case-insensitive substring containment: the relation the spec's words
"case-insensitive substring match" denote. -/
def substrCI (needle hay : String) : Bool :=
  containsChars (lowerChars needle) (lowerChars hay)

/-- Modelled from the spec: `Products.find_by_name(name)` (model layer
absent from the sources) — "returns all products whose name exactly or
partially matches (case-insensitive substring match)". -/
def find_by_name (store : List Products) (name : String) : List Products :=
  store.filter (fun p => substrCI name p.name)

/-- `delete_product_args.parse_args()`: the `name` query argument is
declared `required=True`, so a request without it is answered 400 before
the handler body runs. -/
def parseDeleteArgs (name : Option String) : Except ApiError String :=
  match name with
  | none => .error (.badRequest "Name of the product to delete")
  | some n => .ok n

/-- `ProductCollection.delete` (DELETE /products?name=...): parse the
required `name` argument (400 when missing), look up the products whose
name matches, delete each of them, and return 204 whether or not any
matched. -/
def deleteByName (store : List Products) (name : Option String) :
    List Products × Except ApiError Unit :=
  match parseDeleteArgs name with
  | .error e => (store, .error e)
  | .ok n =>
      if (find_by_name store n).isEmpty then (store, .ok ())
      else (store.filter (fun p => !(substrCI n p.name)), .ok ())

/-- The query parameters of GET /products, each already parsed (`min_price`
and `max_price` through `float`, embedded as the float's rational value). -/
structure ListFilter where
  name : Option String
  min_price : Option ℚ
  max_price : Option ℚ

/-- `ProductCollection.get` (GET /products): start from the full table and
narrow by each provided query parameter; `if product_name:` treats an empty
name string like an absent one; the name filter is
`Products.name.ilike("%" + name + "%")`; the price bounds are `>=`/`<=`. -/
def listProducts (store : List Products) (f : ListFilter) : List Products :=
  let q1 :=
    match f.name with
    | some n => if n ≠ "" then store.filter (fun p => ilike p.name ("%" ++ n ++ "%")) else store
    | none => store
  let q2 :=
    match f.min_price with
    | some m => q1.filter (fun p => m ≤ p.price)
    | none => q1
  match f.max_price with
  | some m => q2.filter (fun p => p.price ≤ m)
  | none => q2

/-- The name condition the route applies: no constraint when the parameter
is absent or empty, otherwise the ILIKE pattern `%name%`. -/
def nameCond : Option String → Products → Prop
  | none, _ => True
  | some n, p => n = "" ∨ ilike p.name ("%" ++ n ++ "%") = true

def minCond : Option ℚ → Products → Prop
  | none, _ => True
  | some m, p => m ≤ p.price

def maxCond : Option ℚ → Products → Prop
  | none, _ => True
  | some m, p => p.price ≤ m

/-- The filter string contains no LIKE metacharacter (`%` or `_`);
lower-casing does not introduce or remove metacharacters. -/
def wildcardFree (s : String) : Bool :=
  (lowerChars s).all (fun c => !(c == '%') && !(c == '_'))

/-! ### C6 — idempotent delete by id -/

theorem find_eraseP_of_nodup (store : List Products) (pid : Nat)
    (hnodup : (store.map Products.id).Nodup) :
    find (store.eraseP (fun p => p.id == pid)) pid = none := by
  induction store with
  | nil => rfl
  | cons q t ih =>
      rw [List.map_cons, List.nodup_cons] at hnodup
      obtain ⟨hq, ht⟩ := hnodup
      by_cases hqp : (q.id == pid) = true
      · rw [List.eraseP_cons_of_pos (p := fun r : Products => r.id == pid) hqp]
        have hqid : q.id = pid := by simpa using hqp
        unfold find
        rw [List.find?_eq_none]
        intro x hx hxp
        apply hq
        have hxid : x.id = pid := by simpa using hxp
        rw [hqid, ← hxid]
        exact List.mem_map_of_mem Products.id hx
      · rw [List.eraseP_cons_of_neg (p := fun r : Products => r.id == pid) hqp]
        unfold find
        rw [List.find?_cons_of_neg (p := fun r : Products => r.id == pid) _ hqp]
        exact ih ht

/-- C6: delete-by-id always reports success (204, never a 404); deleting a
non-existent id leaves the store unchanged; and (under the primary-key
invariant that ids are unique) deleting the same id twice leaves the same
state as deleting it once. -/
theorem delete_by_id_idempotent_success (store : List Products) (pid : Nat)
    (hnodup : (store.map Products.id).Nodup) :
    (deleteById store pid).2 = 204 ∧
      (find store pid = none → (deleteById store pid).1 = store) ∧
      deleteById (deleteById store pid).1 pid = deleteById store pid := by
  refine ⟨?_, ?_, ?_⟩
  · unfold deleteById
    cases h : find store pid <;> rfl
  · intro hnone
    unfold deleteById
    rw [hnone]
  · cases h : find store pid with
    | none =>
        have h1 : deleteById store pid = (store, 204) := by
          unfold deleteById
          rw [h]
        rw [h1]
        exact h1
    | some p =>
        have h1 : deleteById store pid = (store.eraseP (fun r => r.id == pid), 204) := by
          unfold deleteById
          rw [h]
        have h2 : find (store.eraseP (fun r => r.id == pid)) pid = none :=
          find_eraseP_of_nodup store pid hnodup
        rw [h1]
        show deleteById (store.eraseP (fun r => r.id == pid)) pid = _
        unfold deleteById
        rw [h2]

/-- C6 witness: deleting the absent id 2 from a one-product store returns
204 twice and never changes the store. -/
theorem delete_by_id_idempotent_success_witness :
    (([⟨1, "Widget", "", 10⟩] : List Products).map Products.id).Nodup ∧
      ((deleteById [⟨1, "Widget", "", 10⟩] 2).2 = 204 ∧
        (find [⟨1, "Widget", "", 10⟩] 2 = none →
          (deleteById [⟨1, "Widget", "", 10⟩] 2).1 = [⟨1, "Widget", "", 10⟩]) ∧
        deleteById (deleteById [⟨1, "Widget", "", 10⟩] 2).1 2 =
          deleteById [⟨1, "Widget", "", 10⟩] 2) :=
  ⟨by decide, delete_by_id_idempotent_success [⟨1, "Widget", "", 10⟩] 2 (by decide)⟩

/-! ### C7 — update is a full replacement -/

/-- C7: update of an absent id fails with the 404 and leaves the store
unchanged; otherwise a valid payload replaces name, description and price
entirely with the payload values (nothing is preserved from the previous
record) while the id is preserved. -/
theorem update_full_replacement (store : List Products) (pid : Nat) (inp : ProductInput) :
    (find store pid = none →
        updateProduct store pid inp =
          (store, .error (.notFound
            ("Product with id '" ++ toString pid ++ "' was not found.")))) ∧
      (∀ prod, find store pid = some prod → validInput inp →
        updateProduct store pid inp =
            (updateStore store pid ⟨pid, inp.name, inp.description, inp.price⟩,
              .ok ⟨pid, inp.name, inp.description, inp.price⟩) ∧
          find (updateProduct store pid inp).1 pid =
            some ⟨pid, inp.name, inp.description, inp.price⟩) := by
  constructor
  · intro hnone
    unfold updateProduct
    rw [hnone]
  · intro prod hsome hvalid
    have heq : updateProduct store pid inp =
        (updateStore store pid ⟨pid, inp.name, inp.description, inp.price⟩,
          .ok ⟨pid, inp.name, inp.description, inp.price⟩) := by
      unfold updateProduct
      rw [hsome]
      rw [if_pos hvalid]
    refine ⟨heq, ?_⟩
    rw [heq]
    exact find_updateStore store pid _ rfl (by rw [hsome]; rfl)

/-- C7 witness: updating product 1 replaces every field with the payload and
keeps id 1; updating the absent id 2 is a 404 that changes nothing. -/
theorem update_full_replacement_witness :
    find [⟨1, "Old", "od", 10⟩] 1 = some ⟨1, "Old", "od", 10⟩ ∧
      validInput ⟨"Updated Product Name", "Updated Product Description", 250⟩ ∧
      updateProduct [⟨1, "Old", "od", 10⟩] 1
          ⟨"Updated Product Name", "Updated Product Description", 250⟩ =
        ([⟨1, "Updated Product Name", "Updated Product Description", 250⟩],
          .ok ⟨1, "Updated Product Name", "Updated Product Description", 250⟩) ∧
      find [⟨1, "Old", "od", 10⟩] 2 = none ∧
      updateProduct [⟨1, "Old", "od", 10⟩] 2
          ⟨"Updated Product Name", "Updated Product Description", 250⟩ =
        ([⟨1, "Old", "od", 10⟩],
          .error (.notFound "Product with id '2' was not found.")) := by
  have hv : validInput ⟨"Updated Product Name", "Updated Product Description", 250⟩ := by
    refine ⟨by decide, by decide, by decide, by norm_num⟩
  have h1 := (update_full_replacement [⟨1, "Old", "od", 10⟩] 1
    ⟨"Updated Product Name", "Updated Product Description", 250⟩).2
    ⟨1, "Old", "od", 10⟩ rfl hv
  have h2 := (update_full_replacement [⟨1, "Old", "od", 10⟩] 2
    ⟨"Updated Product Name", "Updated Product Description", 250⟩).1 rfl
  exact ⟨rfl, hv, h1.1, rfl, h2⟩

/-! ### C9 — create then find round trip -/

theorem le_foldr_max (l : List Nat) (a : Nat) (h : a ∈ l) : a ≤ l.foldr max 0 := by
  induction l with
  | nil => cases h
  | cons x t ih =>
      rcases List.mem_cons.mp h with rfl | ht
      · exact le_max_left _ _
      · exact le_trans (ih ht) (le_max_right _ _)

theorem id_lt_nextId (store : List Products) (p : Products) (hp : p ∈ store) :
    p.id < nextId store :=
  Nat.lt_succ_of_le (le_foldr_max _ _ (List.mem_map_of_mem Products.id hp))

/-- C9: for every valid input, create succeeds, assigns an id different from
every existing product's id, and a subsequent find on that id returns a
record equal to the input in every field with the fresh id as the only
difference. -/
theorem create_then_find_roundtrip (store : List Products) (inp : ProductInput)
    (hvalid : validInput inp) :
    (createProduct store inp).2 =
        .ok ⟨nextId store, inp.name, inp.description, inp.price⟩ ∧
      (∀ p ∈ store, p.id ≠ nextId store) ∧
      find (createProduct store inp).1 (nextId store) =
        some ⟨nextId store, inp.name, inp.description, inp.price⟩ := by
  refine ⟨?_, ?_, ?_⟩
  · unfold createProduct
    rw [if_pos hvalid]
  · intro p hp
    exact Nat.ne_of_lt (id_lt_nextId store p hp)
  · unfold createProduct
    rw [if_pos hvalid]
    show find (store ++ [⟨nextId store, inp.name, inp.description, inp.price⟩])
      (nextId store) = _
    unfold find
    rw [List.find?_append]
    have h1 : store.find? (fun p => p.id == nextId store) = none := by
      rw [List.find?_eq_none]
      intro x hx hxp
      exact Nat.ne_of_lt (id_lt_nextId store x hx) (by simpa using hxp)
    rw [h1, Option.none_or,
      List.find?_cons_of_pos (p := fun r : Products => r.id == nextId store) _ (by simp)]

/-- C9 witness: creating ("example", "d", 10.00) in an empty store assigns
id 1 and find 1 returns exactly that record. -/
theorem create_then_find_roundtrip_witness :
    validInput ⟨"example", "d", 10⟩ ∧
      ((createProduct [] ⟨"example", "d", 10⟩).2 = .ok ⟨1, "example", "d", 10⟩ ∧
        (∀ p ∈ ([] : List Products), p.id ≠ 1) ∧
        find (createProduct [] ⟨"example", "d", 10⟩).1 1 =
          some ⟨1, "example", "d", 10⟩) := by
  have hv : validInput ⟨"example", "d", 10⟩ :=
    ⟨by decide, by decide, by decide, by norm_num⟩
  exact ⟨hv, create_then_find_roundtrip [] ⟨"example", "d", 10⟩ hv⟩

/-! ### C10 — collection delete requires the name parameter -/

/-- C10: invoking the collection-level delete without a `name` query
parameter is rejected with a 400 before any lookup or deletion: the store
is returned unchanged, so in particular a non-empty store stays non-empty —
the operation never falls back to deleting all (or any) products. -/
theorem delete_collection_requires_name (store : List Products) :
    (deleteByName store none).1 = store ∧
      (∃ msg, (deleteByName store none).2 = .error (.badRequest msg)) ∧
      (store ≠ [] → (deleteByName store none).1 ≠ []) := by
  refine ⟨rfl, ⟨"Name of the product to delete", rfl⟩, fun h => h⟩

/-- C10 witness: with one product stored, the name-less delete leaves the
product in place and reports a 400. -/
theorem delete_collection_requires_name_witness :
    (deleteByName [⟨1, "Widget", "", 10⟩] none).1 = [⟨1, "Widget", "", 10⟩] ∧
      (∃ msg, (deleteByName [⟨1, "Widget", "", 10⟩] none).2 =
        .error (.badRequest msg)) ∧
      ([(⟨1, "Widget", "", 10⟩ : Products)] ≠ [] →
        (deleteByName [⟨1, "Widget", "", 10⟩] none).1 ≠ []) :=
  delete_collection_requires_name [⟨1, "Widget", "", 10⟩]

/-! ### C5 — delete by name deletes the `find_by_name` matches -/

theorem deleteByName_some (store : List Products) (n : String) :
    deleteByName store (some n) =
      (store.filter (fun p => !(substrCI n p.name)), .ok ()) := by
  show (if (find_by_name store n).isEmpty then (store, Except.ok ())
        else (store.filter (fun p => !(substrCI n p.name)), Except.ok ())) = _
  by_cases h : (find_by_name store n).isEmpty
  · rw [if_pos h]
    have hfe : store.filter (fun p => substrCI n p.name) = [] := by
      unfold find_by_name at h
      exact List.isEmpty_iff.mp h
    have hself : store.filter (fun p => !(substrCI n p.name)) = store := by
      rw [List.filter_eq_self]
      intro p hp
      cases hb : substrCI n p.name with
      | false => rfl
      | true =>
          have hmem : p ∈ store.filter (fun p => substrCI n p.name) :=
            List.mem_filter.mpr ⟨hp, hb⟩
          rw [hfe] at hmem
          cases hmem
    rw [hself]
  · rw [if_neg h]

/-- C5 is false as stated: the route deletes via the substring-matching
`find_by_name`, so deleting the name "idget" removes the product named
"Widget" even though the two names are not equal. -/
theorem delete_by_name_substring_cx :
    deleteByName [⟨1, "Widget", "", 10⟩] (some "idget") = ([], .ok ()) ∧
      "Widget" ≠ "idget" :=
  ⟨rfl, by decide⟩

/-- C5 (amended): for every name `n`, delete-by-name succeeds (zero matches
included), deletes exactly the products whose name contains `n` as a
case-insensitive substring, and is idempotent. -/
theorem delete_by_name_deletes_matches (store : List Products) (n : String) :
    (deleteByName store (some n)).2 = .ok () ∧
      (∀ p, p ∈ (deleteByName store (some n)).1 ↔
        p ∈ store ∧ ¬ substrCI n p.name = true) ∧
      deleteByName (deleteByName store (some n)).1 (some n) =
        deleteByName store (some n) := by
  refine ⟨?_, ?_, ?_⟩
  · rw [deleteByName_some]
  · intro p
    rw [deleteByName_some]
    simp [List.mem_filter]
  · rw [deleteByName_some store n]
    rw [deleteByName_some]
    simp [List.filter_filter]

/-! ### C8 — list filtering: LIKE patterns versus substring matching -/

theorem likeMatch_pct_cons (ps : List Char) (s : List Char) :
    likeMatch ('%' :: ps) s = s.tails.any (fun t => likeMatch ps t) := by
  simp [likeMatch]

theorem likeMatch_plain_cons_nil (q : Char) (ps : List Char) (hq : ¬ q = '%') :
    likeMatch (q :: ps) [] = false := by
  simp only [likeMatch]
  rw [if_neg hq]

theorem likeMatch_plain_cons (q : Char) (ps : List Char) (c : Char) (cs : List Char)
    (hq : ¬ q = '%') (hu : ¬ q = '_') :
    likeMatch (q :: ps) (c :: cs) = ((q == c) && likeMatch ps cs) := by
  simp only [likeMatch]
  rw [if_neg hq]
  show ((if q = '_' then true else q == c) && likeMatch ps cs) = _
  rw [if_neg hu]

theorem likeMatch_pct_iff (ps s : List Char) :
    likeMatch ('%' :: ps) s = true ↔ ∃ t, t <:+ s ∧ likeMatch ps t = true := by
  rw [likeMatch_pct_cons]
  simp only [List.any_eq_true]
  constructor
  · rintro ⟨t, hts, ht⟩
    exact ⟨t, (List.mem_tails t s).mp hts, ht⟩
  · rintro ⟨t, hts, ht⟩
    exact ⟨t, (List.mem_tails t s).mpr hts, ht⟩

theorem likeMatch_pct_nil_pat (s : List Char) : likeMatch ['%'] s = true := by
  rw [likeMatch_pct_cons]
  simp only [List.any_eq_true]
  exact ⟨[], (List.mem_tails [] s).mpr List.nil_suffix, rfl⟩

theorem likeMatch_plain_pct (p : List Char) (s : List Char)
    (h : ∀ c ∈ p, ¬ c = '%' ∧ ¬ c = '_') :
    likeMatch (p ++ ['%']) s = true ↔ p <+: s := by
  induction p generalizing s with
  | nil =>
      simp only [List.nil_append]
      exact ⟨fun _ => List.nil_prefix, fun _ => likeMatch_pct_nil_pat s⟩
  | cons a as ih =>
      obtain ⟨ha1, ha2⟩ := h a (List.mem_cons_self a as)
      have hrest : ∀ c ∈ as, ¬ c = '%' ∧ ¬ c = '_' :=
        fun c hc => h c (List.mem_cons_of_mem a hc)
      cases s with
      | nil =>
          rw [List.cons_append, likeMatch_plain_cons_nil a _ ha1]
          simp
      | cons c cs =>
          rw [List.cons_append, likeMatch_plain_cons a _ c cs ha1 ha2]
          simp only [Bool.and_eq_true, beq_iff_eq, ih cs hrest, List.cons_prefix_cons]

theorem likeMatch_full (p s : List Char) (h : ∀ c ∈ p, ¬ c = '%' ∧ ¬ c = '_') :
    likeMatch ('%' :: (p ++ ['%'])) s = true ↔ p <:+: s := by
  rw [likeMatch_pct_iff]
  constructor
  · rintro ⟨t, hts, ht⟩
    exact List.infix_iff_prefix_suffix.mpr ⟨t, (likeMatch_plain_pct p t h).mp ht, hts⟩
  · intro hinf
    obtain ⟨t, hpt, hts⟩ := List.infix_iff_prefix_suffix.mp hinf
    exact ⟨t, hts, (likeMatch_plain_pct p t h).mpr hpt⟩

theorem startsWithChars_iff (p s : List Char) :
    startsWithChars p s = true ↔ p <+: s := by
  induction p generalizing s with
  | nil => simp [startsWithChars]
  | cons a as ih =>
      cases s with
      | nil => simp [startsWithChars]
      | cons b bs =>
          simp [startsWithChars, List.cons_prefix_cons, ih]

theorem containsChars_iff (p s : List Char) :
    containsChars p s = true ↔ p <:+: s := by
  unfold containsChars
  simp only [List.any_eq_true]
  constructor
  · rintro ⟨t, hts, ht⟩
    exact List.infix_iff_prefix_suffix.mpr
      ⟨t, (startsWithChars_iff p t).mp ht, (List.mem_tails t s).mp hts⟩
  · intro hinf
    obtain ⟨t, hpt, hts⟩ := List.infix_iff_prefix_suffix.mp hinf
    exact ⟨t, (List.mem_tails t s).mpr hts, (startsWithChars_iff p t).mpr hpt⟩

/-- For a wildcard-free filter string, the route's ILIKE pattern `%n%`
coincides with case-insensitive substring containment. -/
theorem ilike_eq_substrCI (hay n : String) (h : wildcardFree n = true) :
    ilike hay ("%" ++ n ++ "%") = substrCI n hay := by
  have hchars : lowerChars ("%" ++ n ++ "%") = '%' :: (lowerChars n ++ ['%']) := by
    unfold lowerChars
    rw [String.data_append, String.data_append]
    show List.map Char.toLower (('%' :: n.data) ++ ['%']) = _
    rw [List.map_append, List.map_cons]
    rfl
  unfold ilike
  rw [hchars]
  have hwf : ∀ c ∈ lowerChars n, ¬ c = '%' ∧ ¬ c = '_' := by
    intro c hc
    have hb := List.all_eq_true.mp h c hc
    simp only [Bool.and_eq_true, Bool.not_eq_eq_eq_not, Bool.not_true, beq_eq_false_iff_ne,
      ne_eq] at hb
    exact hb
  have h1 := likeMatch_full (lowerChars n) (lowerChars hay) hwf
  have h2 := containsChars_iff (lowerChars n) (lowerChars hay)
  unfold substrCI
  by_cases hc : (lowerChars n) <:+: (lowerChars hay)
  · rw [h1.mpr hc, h2.mpr hc]
  · have e1 : likeMatch ('%' :: (lowerChars n ++ ['%'])) (lowerChars hay) = false := by
      cases hval : likeMatch ('%' :: (lowerChars n ++ ['%'])) (lowerChars hay) with
      | false => rfl
      | true => exact absurd (h1.mp hval) hc
    have e2 : containsChars (lowerChars n) (lowerChars hay) = false := by
      cases hval : containsChars (lowerChars n) (lowerChars hay) with
      | false => rfl
      | true => exact absurd (h2.mp hval) hc
    rw [e1, e2]

/-- C8 is false as stated: the name filter is applied through SQL ILIKE, in
which `%` is a wildcard, not a literal character. With filter name "a%b"
the product named "aXb" is returned by the list route, although "a%b" is
not a (case-insensitive) substring of "aXb". -/
theorem list_name_filter_wildcard_cx :
    listProducts [⟨1, "aXb", "", 1⟩] ⟨some "a%b", none, none⟩ = [⟨1, "aXb", "", 1⟩] ∧
      substrCI "a%b" "aXb" = false :=
  ⟨rfl, by decide⟩

set_option linter.unnecessarySeqFocus false in
/-- C8 (amended): the list route returns exactly the products satisfying the
conjunction of the present filters, where min_price and max_price are
inclusive bounds, an absent (or empty) filter imposes no constraint, and
the name filter is the case-insensitive SQL LIKE pattern `%name%` (so `%`
and `_` in the filter act as wildcards); for filter strings without those
metacharacters the name filter coincides with case-insensitive substring
matching. -/
theorem list_filters_characterization (store : List Products) (f : ListFilter) :
    (∀ p, p ∈ listProducts store f ↔
        p ∈ store ∧ nameCond f.name p ∧ minCond f.min_price p ∧ maxCond f.max_price p) ∧
      (∀ n hay, wildcardFree n = true →
        ilike hay ("%" ++ n ++ "%") = substrCI n hay) := by
  refine ⟨?_, fun n hay h => ilike_eq_substrCI hay n h⟩
  intro p
  obtain ⟨fn, fmin, fmax⟩ := f
  cases fn with
  | none =>
      cases fmin <;> cases fmax <;>
        simp [listProducts, nameCond, minCond, maxCond, List.mem_filter, and_assoc] <;>
        tauto
  | some n =>
      by_cases hn : n = ""
      · subst hn
        cases fmin <;> cases fmax <;>
          simp [listProducts, nameCond, minCond, maxCond, List.mem_filter, and_assoc] <;>
          tauto
      · cases fmin <;> cases fmax <;>
          simp [listProducts, nameCond, minCond, maxCond, List.mem_filter, hn, and_assoc] <;>
          tauto

/-- C8 witness: with min_price 10 and max_price 100, the products priced
exactly 10 and exactly 100 are both returned and a product priced 200 is
not; on the wildcard-free name "abc" the ILIKE filter agrees with
substring matching. -/
theorem list_filters_characterization_witness :
    wildcardFree "abc" = true ∧
      ((⟨1, "A", "", 10⟩ : Products) ∈
          listProducts [⟨1, "A", "", 10⟩, ⟨2, "B", "", 100⟩, ⟨3, "C", "", 200⟩]
            ⟨none, some 10, some 100⟩ ∧
        (⟨2, "B", "", 100⟩ : Products) ∈
          listProducts [⟨1, "A", "", 10⟩, ⟨2, "B", "", 100⟩, ⟨3, "C", "", 200⟩]
            ⟨none, some 10, some 100⟩ ∧
        (⟨3, "C", "", 200⟩ : Products) ∉
          listProducts [⟨1, "A", "", 10⟩, ⟨2, "B", "", 100⟩, ⟨3, "C", "", 200⟩]
            ⟨none, some 10, some 100⟩ ∧
        ilike "xabcy" ("%" ++ "abc" ++ "%") = substrCI "abc" "xabcy") := by
  have h := list_filters_characterization
    [⟨1, "A", "", 10⟩, ⟨2, "B", "", 100⟩, ⟨3, "C", "", 200⟩] ⟨none, some 10, some 100⟩
  refine ⟨by decide, ?_, ?_, ?_, h.2 "abc" "xabcy" (by decide)⟩
  · refine (h.1 _).mpr ⟨by simp, trivial, ?_, ?_⟩
    · show (10 : ℚ) ≤ 10
      norm_num
    · show (10 : ℚ) ≤ 100
      norm_num
  · refine (h.1 _).mpr ⟨by simp, trivial, ?_, ?_⟩
    · show (10 : ℚ) ≤ 100
      norm_num
    · show (100 : ℚ) ≤ 100
      norm_num
  · intro hmem
    have hmax := ((h.1 _).mp hmem).2.2.2
    have : (200 : ℚ) ≤ 100 := hmax
    norm_num at this

end ProductsService
